import Mathlib

/-!
Shallow embedding of the stake-orbitals contracts
(src/claim/src/lib.rs, src/stake/src/lib.rs, src/src/lib.rs)
and proofs about the frozen claims.

Conventions:
* Rust `u128` values are modelled as `Nat`.  Additions that represent
  economically bounded quantities are modelled unbounded; the two plain
  (unchecked) `u128` subtractions in the source, which can wrap in a
  release build, are modelled explicitly with `wrapSub128` below.
  `u128::checked_add` is modelled by an explicit `2 ^ 128` bound check,
  `saturating_sub` by `Nat` truncated subtraction.
* Cross-contract static calls are modelled by an environment record
  giving, for each queried id, the raw response bytes (`Except Unit`
  covers a failed call).  A Rust `panic`/`unwrap` failure is modelled as
  an `Except.error`, like an `anyhow` error: for the surrounding call
  both are observationally a failed call.
* Each contract operation takes the persistent state and returns the
  pair of the call result (outgoing transfers, or an error) and the raw
  state as mutated up to the return point, so that writes performed
  before an error return stay visible to the theorems.
-/

namespace StakeOrbitals

/-- An alkane id: `{block, tx}` pair (`alkanes_support::id::AlkaneId`). -/
structure AlkaneId where
  block : Nat
  tx : Nat
deriving DecidableEq, Repr

/-- An attached transfer of `value` units of asset `id`
(`alkanes_support::parcel::AlkaneTransfer`). -/
structure AlkaneTransfer where
  id : AlkaneId
  value : Nat
deriving DecidableEq, Repr

/-- `SWAP_RATE` in src/claim/src/lib.rs: 25000 $BB per BEEP BOOP, also the
per-asset lifetime claim cap. -/
def SWAP_RATE : Nat := 25000

/-- `MAX_SUPPLY` in src/claim/src/lib.rs. -/
def MAX_SUPPLY : Nat := 250000000

/-- `MAX_MINTS` in src/stake/src/lib.rs. -/
def MAX_MINTS : Nat := 10000

/-- One more than the largest `u128`. -/
def U128 : Nat := 2 ^ 128

/-- Release-profile semantics of the unchecked Rust `u128` subtraction
`a - b`: wraps modulo `2 ^ 128` (a debug build would panic; either way it
is not a saturating subtraction). Arguments are assumed `< 2 ^ 128`. -/
def wrapSub128 (a b : Nat) : Nat :=
  if b ≤ a then a - b else U128 - (b - a)

/-- `u128::from_le_bytes` on a 16-byte little-endian buffer; bytes are
`u8` values. -/
def fromLEBytes (l : List Nat) : Nat :=
  l.foldr (fun b acc => b + 256 * acc) 0

/-- Sum of the `value` fields of a transfer list (the `+=` accumulation
loops of the source). -/
def sumValues (l : List AlkaneTransfer) : Nat :=
  l.foldl (fun a t => a + t.value) 0

/-! ## Claim contract (src/claim/src/lib.rs) -/

/-- Persistent storage of the claim contract.  Each field is one storage
pointer family: `/claimed-amounts`, `/total-claimed`, `/bb-supply`,
`/contract-beep-boop-balance`, `/contract-stored-beep-boop-tokens`
(`none` models an empty byte value), `/next-deposit-index`,
`/next-swap-index`. -/
structure ClaimState where
  claimed : AlkaneId → Nat
  totalClaimed : Nat
  bbSupply : Nat
  poolBalance : Nat
  slots : Nat → Option AlkaneId
  depositIndex : Nat
  swapIndex : Nat

/-- Environment of one claim-contract call: the current height, the
contract's own id (`context.myself`) and the raw byte responses of the
static calls into the stake contract (opcodes 506, 508, 510, 507).
`Except.error ()` models a failed static call; the LP response is
modelled at the decoded-UTF-8 level as a `String`. -/
structure StakeEnv where
  height : Nat
  myself : AlkaneId
  eligData : AlkaneId → Except Unit (List Nat)
  lpData : AlkaneId → Except Unit String
  totalStakedBlocksData : AlkaneId → Except Unit (List Nat)
  stakedHeightData : AlkaneId → Except Unit (List Nat)

/-- `verify_lp_token`: the LP query must succeed with non-empty data. -/
def verifyLpToken (env : StakeEnv) (lpId : AlkaneId) : Bool :=
  match env.lpData lpId with
  | .ok resp => !resp.isEmpty
  | .error _ => false

/-- `verify_id_collection` of the claim contract: eligibility static call
(`.unwrap()` panics on failure, and `data[0]` panics on an empty
response, both modelled as errors), then LP fallback. -/
def verifyIdCollection (env : StakeEnv) (orbitalId : AlkaneId) :
    Except String Bool :=
  match env.eligData orbitalId with
  | .error _ => .error "unwrap: eligibility staticcall failed"
  | .ok data =>
    match data with
    | [] => .error "index out of bounds: response data is empty"
    | b :: _ => if b = 1 then .ok true else .ok (verifyLpToken env orbitalId)

/-- `get_original_nft_from_lp`: parse a colon-delimited `block:tx` string
out of the LP query response; the unwraps on the call, the UTF-8 decode
and the number parses are modelled as errors. -/
def getOriginalNftFromLp (env : StakeEnv) (lpId : AlkaneId) :
    Except String AlkaneId :=
  match env.lpData lpId with
  | .error _ => .error "unwrap: lp staticcall failed"
  | .ok idString =>
    let parts := idString.splitOn ":"
    if h : parts.length = 2 then
      match (parts.get ⟨0, by omega⟩).toNat?, (parts.get ⟨1, by omega⟩).toNat? with
      | some b, some t => .ok ⟨b, t⟩
      | _, _ => .error "unwrap: parse failed"
    else
      .error "Invalid LP token response format"

/-- `resolve_alkane_id`: direct eligibility (unwrap panics modelled as
errors) short-circuits, else resolve through the LP binding. -/
def resolveAlkaneId (env : StakeEnv) (id : AlkaneId) :
    Except String AlkaneId :=
  match env.eligData id with
  | .error _ => .error "unwrap: eligibility staticcall failed"
  | .ok data =>
    match data with
    | [] => .error "index out of bounds: response data is empty"
    | b :: _ => if b = 1 then .ok id else getOriginalNftFromLp env id

/-- `get_total_staked_blocks_from_contract`: a failed call or a response
whose length is not exactly 16 bytes degrades to 0. -/
def getTotalStakedBlocksFromContract (env : StakeEnv) (id : AlkaneId) : Nat :=
  match env.totalStakedBlocksData id with
  | .error _ => 0
  | .ok data => if data.length ≠ 16 then 0 else fromLEBytes data

/-- `try_get_staked_height`: hard error on a failed call, a non-16-byte
response, or a zero height. -/
def tryGetStakedHeight (env : StakeEnv) (id : AlkaneId) : Except String Nat :=
  match env.stakedHeightData id with
  | .error _ => .error "Staticcall failed"
  | .ok data =>
    if data.length ≠ 16 then .error "Invalid response size from GetStakedHeight"
    else
      let h := fromLEBytes data
      if h = 0 then .error "Not currently staked" else .ok h

/-- `get_current_staking_period`: `unwrap_or(0)` on the height query, then
the open staking period, clamped at 0. -/
def getCurrentStakingPeriod (env : StakeEnv) (id : AlkaneId) : Nat :=
  let stakedHeight := match tryGetStakedHeight env id with
    | .ok h => h
    | .error _ => 0
  if stakedHeight = 0 then 0
  else if stakedHeight ≤ env.height then env.height - stakedHeight else 0

/-- `calculate_total_rewards`: closed staking periods plus the open one;
never fails. -/
def calculateTotalRewards (env : StakeEnv) (id : AlkaneId) : Nat :=
  getTotalStakedBlocksFromContract env id + getCurrentStakingPeriod env id

/-- `get_total_staked_by_alkane_id` (opcode 300), up to the little-endian
response encoding. -/
def getTotalStakedByIdOp (env : StakeEnv) (id : AlkaneId) :
    Except String Nat :=
  match resolveAlkaneId env id with
  | .error e => .error e
  | .ok o => .ok (getTotalStakedBlocksFromContract env o)

/-- `get_total_claimed_by_alkane_id` (opcode 301), up to the response
encoding. -/
def getTotalClaimedByIdOp (env : StakeEnv) (s : ClaimState) (id : AlkaneId) :
    Except String Nat :=
  match resolveAlkaneId env id with
  | .error e => .error e
  | .ok o => .ok (s.claimed o)

/-- `get_total_available_to_claim` (opcode 302): saturating earned and
lifetime headroom, their minimum. -/
def getTotalAvailableToClaimOp (env : StakeEnv) (s : ClaimState)
    (id : AlkaneId) : Except String Nat :=
  match resolveAlkaneId env id with
  | .error e => .error e
  | .ok o =>
    let totalRewards := calculateTotalRewards env o
    let claimedAmount := s.claimed o
    .ok (min (totalRewards - claimedAmount) (SWAP_RATE - claimedAmount))

/-- The per-id loop of `claim_rewards`: returns the accumulated batch
total or the first error, together with the state as mutated so far. -/
def claimLoop (env : StakeEnv) :
    List AlkaneTransfer → ClaimState → Nat → Except String Nat × ClaimState
  | [], s, acc => (.ok acc, s)
  | t :: rest, s, acc =>
    match resolveAlkaneId env t.id with
    | .error e => (.error e, s)
    | .ok o =>
      let totalRewards := calculateTotalRewards env o
      let previouslyClaimed := s.claimed o
      if totalRewards ≤ previouslyClaimed then
        (.error "No rewards available", s)
      else
        let avail := min (totalRewards - previouslyClaimed)
          (SWAP_RATE - previouslyClaimed)
        if 0 < avail then
          claimLoop env rest
            { s with claimed :=
                Function.update s.claimed o (previouslyClaimed + avail) }
            (acc + avail)
        else
          claimLoop env rest s acc

/-- `claim_rewards` (opcode 400). -/
def claimRewards (env : StakeEnv) (incoming : List AlkaneTransfer)
    (s : ClaimState) : Except String (List AlkaneTransfer) × ClaimState :=
  if incoming.isEmpty then
    (.error "Must provide alkane IDs to claim rewards for", s)
  else
    match claimLoop env incoming s 0 with
    | (.error e, s1) => (.error e, s1)
    | (.ok totalClaimedBatch, s1) =>
      let s2 := { s1 with totalClaimed := s1.totalClaimed + totalClaimedBatch }
      if 0 < totalClaimedBatch then
        if MAX_SUPPLY < s2.bbSupply + totalClaimedBatch then
          (.error "Would exceed max BB supply", s2)
        else
          (.ok [⟨env.myself, totalClaimedBatch⟩],
            { s2 with bbSupply := s2.bbSupply + totalClaimedBatch })
      else
        (.ok [], s2)

/-- `store_beep_boop_token_in_contract` iterated over a transfer list,
also accumulating the deposited value total. -/
def storeLoop : List AlkaneTransfer → ClaimState → Nat → ClaimState × Nat
  | [], s, tot => (s, tot)
  | t :: rest, s, tot =>
    storeLoop rest
      { s with
        slots := Function.update s.slots s.depositIndex (some t.id)
        depositIndex := s.depositIndex + 1 }
      (tot + t.value)

/-- The validation loop of `deposit_beep_boop`. -/
def validateDeposit (env : StakeEnv) :
    List AlkaneTransfer → Except String Unit
  | [] => .ok ()
  | t :: rest =>
    match verifyIdCollection env t.id with
    | .error e => .error e
    | .ok false => .error "Invalid token - only BEEP BOOP NFTs can be deposited"
    | .ok true => validateDeposit env rest

/-- `deposit_beep_boop` (opcode 511). -/
def depositBeepBoop (env : StakeEnv) (incoming : List AlkaneTransfer)
    (s : ClaimState) : Except String (List AlkaneTransfer) × ClaimState :=
  if incoming.isEmpty then
    (.error "Must provide BEEP BOOP tokens to deposit", s)
  else
    match validateDeposit env incoming with
    | .error e => (.error e, s)
    | .ok () =>
      let (s1, total) := storeLoop incoming s 0
      (.ok [], { s1 with poolBalance := s1.poolBalance + total })

/-- The scan loop of `retrieve_beep_boop_tokens_from_contract`.  `fuel` is
`deposit_index - current`, so fuel exhaustion is exactly the loop
condition `current_swap_index < deposit_index` failing.  Returns the
dispensed transfers, the updated slot map, the final scan position and
the number of still-missing tokens. -/
def retrieveLoop :
    Nat → (Nat → Option AlkaneId) → Nat → Nat →
      List AlkaneTransfer × (Nat → Option AlkaneId) × Nat × Nat
  | 0, slots, cur, rem => ([], slots, cur, rem)
  | fuel + 1, slots, cur, rem =>
    if rem = 0 then ([], slots, cur, rem)
    else
      match slots cur with
      | some tokenId =>
        let (ts, sl, c, r) :=
          retrieveLoop fuel (Function.update slots cur none) (cur + 1) (rem - 1)
        (⟨tokenId, 1⟩ :: ts, sl, c, r)
      | none => retrieveLoop fuel slots (cur + 1) rem

/-- `retrieve_beep_boop_tokens_from_contract`: the swap index is written
back before the sufficiency check, so it is advanced in the returned raw
state even when the call errors. -/
def retrieveBeepBoopTokens (amount : Nat) (s : ClaimState) :
    Except String (List AlkaneTransfer) × ClaimState :=
  let (tokens, slots1, cur1, rem1) :=
    retrieveLoop (s.depositIndex - s.swapIndex) s.slots s.swapIndex amount
  let s1 := { s with slots := slots1, swapIndex := cur1 }
  if 0 < rem1 then (.error "Insufficient stored BEEP BOOP NFTs", s1)
  else (.ok tokens, s1)

/-- `swap_b_b_to_beep_boop` (opcode 501): fungible in, custodied assets
out.  The supply decrease is the source's unchecked `u128` subtraction,
modelled with `wrapSub128`. -/
def swapBBToBeepBoop (env : StakeEnv) (incoming : List AlkaneTransfer)
    (s : ClaimState) : Except String (List AlkaneTransfer) × ClaimState :=
  if incoming.any (fun t => t.id ≠ env.myself) then
    (.error "Invalid token - only $BB tokens from this contract are accepted", s)
  else
    let totalIncomingBB := sumValues incoming
    if totalIncomingBB = 0 then
      (.error "Must provide $BB tokens to swap", s)
    else
      let beepBoopAmount := totalIncomingBB / SWAP_RATE
      let changeAmount := totalIncomingBB % SWAP_RATE
      let bbUsedForSwap := beepBoopAmount * SWAP_RATE
      if beepBoopAmount = 0 then
        (.error "Insufficient $BB tokens to swap for at least 1 BEEP BOOP", s)
      else if s.poolBalance < beepBoopAmount then
        (.error "Insufficient BEEP BOOP tokens in contract pool", s)
      else
        let s1 := { s with bbSupply := wrapSub128 s.bbSupply bbUsedForSwap }
        match retrieveBeepBoopTokens beepBoopAmount s1 with
        | (.error e, s2) => (.error e, s2)
        | (.ok tokens, s2) =>
          let s3 := { s2 with poolBalance := s2.poolBalance - beepBoopAmount }
          let outgoing :=
            tokens ++ (if 0 < changeAmount then [⟨env.myself, changeAmount⟩] else [])
          (.ok outgoing, s3)

/-- The validation-and-sum loop of `swap_beep_boop_to_b_b`. -/
def validateSwapIn (env : StakeEnv) :
    List AlkaneTransfer → Except String Unit
  | [] => .ok ()
  | t :: rest =>
    match verifyIdCollection env t.id with
    | .error e => .error e
    | .ok false => .error "Invalid token - only BEEP BOOP NFTs can be swapped"
    | .ok true => validateSwapIn env rest

/-- `swap_beep_boop_to_b_b` (opcode 502): assets in, fungible out, under
the `MAX_SUPPLY` cap. -/
def swapBeepBoopToBB (env : StakeEnv) (incoming : List AlkaneTransfer)
    (s : ClaimState) : Except String (List AlkaneTransfer) × ClaimState :=
  if incoming.isEmpty then
    (.error "No BEEP BOOP tokens provided for swap", s)
  else
    match validateSwapIn env incoming with
    | .error e => (.error e, s)
    | .ok () =>
      let totalIncomingBeepBoop := sumValues incoming
      let bbAmount := totalIncomingBeepBoop * SWAP_RATE
      let (s1, _) := storeLoop incoming s 0
      let s2 := { s1 with poolBalance := s1.poolBalance + totalIncomingBeepBoop }
      if MAX_SUPPLY < s2.bbSupply + bbAmount then
        (.error "Would exceed max BB supply", s2)
      else
        (.ok [⟨env.myself, bbAmount⟩],
          { s2 with bbSupply := s2.bbSupply + bbAmount })

/-- Modelled from the spec: the host execution environment (out of scope
of src; spec sections 5 and 7) serializes calls and commits a call's
storage writes only when the call returns success — on an error return
every write is discarded.  `commitRun` applies that guarantee to a raw
run. -/
def commitRun (s : ClaimState)
    (r : Except String (List AlkaneTransfer) × ClaimState) : ClaimState :=
  match r.1 with
  | .ok _ => r.2
  | .error _ => s

/-- The call result is an error. -/
def isErrRes (r : Except String (List AlkaneTransfer) × ClaimState) : Prop :=
  ∃ e, r.1 = Except.error e

instance (r : Except String (List AlkaneTransfer) × ClaimState) :
    Decidable (isErrRes r) := by
  unfold isErrRes
  match r with
  | (.ok v, s) => exact .isFalse (by simp)
  | (.error e, s) => exact .isTrue ⟨e, rfl⟩

/-! ## LP-binding stake contract (src/stake/src/lib.rs) -/

/-- Persistent storage of the LP-binding stake contract: `/stake-height`,
`/address-staked-pointer` (keyed by LP id; `none` models an empty byte
value), `/total-staked-blocks`, `/total-staked`, `/total-unstaked`, and
`/instances` (the count at the base key plus one stored id per selected
`u128` key). -/
structure LPStakeState where
  stakeHeight : AlkaneId → Nat
  stakedIdOf : AlkaneId → Option AlkaneId
  totalStakedBlocks : AlkaneId → Nat
  totalStaked : Nat
  totalUnstaked : Nat
  instancesCount : Nat
  instances : Nat → Option AlkaneId

/-- Environment of one LP-stake call.  `isBeepBoop` — Modelled from the
spec: the fixed allow-list `BEEP_BOOP_IDS` lives in the
`orbitals_ids` module, which is not under src; the spec describes it as
a fixed allow-list of eligible sequence numbers.  `mintIndexData` is the
raw response of the `GetNftIndex` (999) static call to the staked asset;
`factoryCall n ix` the factory invocation number `n` of the call (its
returned transfer list), and `seq n` the host sequence number read
before that invocation. -/
structure LPEnv where
  height : Nat
  isBeepBoop : Nat → Bool
  mintIndexData : AlkaneId → Except Unit (List Nat)
  factoryCall : Nat → Nat → Except Unit (List AlkaneTransfer)
  seq : Nat → Nat

/-- `BEEP_BOOP_BLOCK` shared by both stake variants. -/
def BEEP_BOOP_BLOCK : Nat := 2

/-- `verify_id_collection` of the stake contracts: fixed block and
allow-list membership. -/
def verifyIdCollectionLP (env : LPEnv) (orbitalId : AlkaneId) : Bool :=
  orbitalId.block == BEEP_BOOP_BLOCK && env.isBeepBoop orbitalId.tx

/-- `create_mint_transfer`: cap check against `MAX_MINTS`, factory call,
then `add_instance` records `{2, sequence}` at key `instancesCount + 1`
(checked increment), and the factory's first returned transfer is the
result.  Also returns the next factory invocation number. -/
def createMintTransfer (env : LPEnv) (n : Nat) (index : Nat)
    (s : LPStakeState) :
    Except String AlkaneTransfer × LPStakeState × Nat :=
  if MAX_MINTS ≤ index then (.error "Minted out", s, n)
  else
    let sequence := env.seq n
    match env.factoryCall n index with
    | .error _ => (.error "factory call failed", s, n + 1)
    | .ok alks =>
      let orbitalId : AlkaneId := ⟨2, sequence⟩
      if U128 ≤ s.instancesCount + 1 then (.error "Minted out", s, n + 1)
      else
        let newCount := s.instancesCount + 1
        let s1 := { s with
          instances := Function.update s.instances newCount (some orbitalId)
          instancesCount := newCount }
        match alks with
        | [] => (.error "orbital token not returned with factory", s1, n + 1)
        | a :: _ => (.ok a, s1, n + 1)

/-- The precondition loop of the LP `stake`: collection membership and
the already-staked check, performed for the whole batch before any
write. -/
def lpStakeChecks (env : LPEnv) :
    List AlkaneTransfer → LPStakeState → Except String Unit
  | [], _ => .ok ()
  | t :: rest, s =>
    if !verifyIdCollectionLP env t.id then .error "Alkane ID not verified"
    else if s.stakeHeight t.id ≠ 0 then .error "Orbital already staked"
    else lpStakeChecks env rest s

/-- The per-asset loop of the LP `stake`: value check, mint-index query
(`?` propagation on the call, panic on a non-16-byte response), stake
height write, then mint-or-reuse of the receipt at the queried index and
the receipt-to-original binding write. -/
def lpStakeLoop (env : LPEnv) :
    List AlkaneTransfer → LPStakeState → List AlkaneTransfer → Nat →
      Except String (List AlkaneTransfer) × LPStakeState
  | [], s, minted, _ => (.ok minted, s)
  | t :: rest, s, minted, n =>
    if t.value ≠ 1 then (.error "Alkane amount must be 1", s)
    else
      match env.mintIndexData t.id with
      | .error _ => (.error "staticcall failed", s)
      | .ok data =>
        if data.length ≠ 16 then
          (.error "unwrap: response is not 16 bytes", s)
        else
          let index := fromLEBytes data
          let s1 := { s with
            stakeHeight := Function.update s.stakeHeight t.id env.height }
          match s1.instances index with
          | none =>
            match createMintTransfer env n index s1 with
            | (.error e, s2, _) => (.error e, s2)
            | (.ok m, s2, n') =>
              let s3 := { s2 with
                stakedIdOf := Function.update s2.stakedIdOf m.id (some t.id) }
              lpStakeLoop env rest s3 (minted ++ [m]) n'
          | some existing =>
            let s2 := { s1 with
              stakedIdOf := Function.update s1.stakedIdOf existing (some t.id) }
            lpStakeLoop env rest s2 (minted ++ [⟨existing, 1⟩]) n

/-- LP-binding `stake` (opcode 500 of src/stake/src/lib.rs). -/
def stakeLP (env : LPEnv) (incoming : List AlkaneTransfer)
    (s : LPStakeState) :
    Except String (List AlkaneTransfer) × LPStakeState :=
  if incoming.isEmpty then
    (.error "Must send at least 1 orbital to stake", s)
  else
    match lpStakeChecks env incoming s with
    | .error e => (.error e, s)
    | .ok () =>
      match lpStakeLoop env incoming s [] 0 with
      | (.error e, s1) => (.error e, s1)
      | (.ok minted, s1) =>
        (.ok minted, { s1 with totalStaked := s1.totalStaked + incoming.length })

/-- LP-binding `unstake` (opcode 501 of src/stake/src/lib.rs): exactly
one LP receipt of value 1, lookup of the bound original (the panic on a
missing binding is modelled as an error), saturating period, checked
accumulation, record clearing. -/
def unstakeLP (env : LPEnv) (incoming : List AlkaneTransfer)
    (s : LPStakeState) :
    Except String (List AlkaneTransfer) × LPStakeState :=
  if incoming.length ≠ 1 then
    (.error "Must send exactly 1 LP token to unstake", s)
  else
    match incoming with
    | [] => (.error "Must send exactly 1 LP token to unstake", s)
    | t :: _ =>
      if t.value ≠ 1 then (.error "LP token amount must be 1", s)
      else
        match s.stakedIdOf t.id with
        | none => (.error "Beep Boop LP ID not found", s)
        | some stakedAlkaneId =>
          let stakedAtBlock := s.stakeHeight stakedAlkaneId
          if stakedAtBlock = 0 then
            (.error "Orbital stake record not found", s)
          else
            let periodBlocks := env.height - stakedAtBlock
            let previousTotal := s.totalStakedBlocks stakedAlkaneId
            if U128 ≤ previousTotal + periodBlocks then
              (.error "Total staked blocks overflow", s)
            else
              let s1 := { s with
                totalStakedBlocks := Function.update s.totalStakedBlocks
                  stakedAlkaneId (previousTotal + periodBlocks)
                stakeHeight :=
                  Function.update s.stakeHeight stakedAlkaneId 0
                stakedIdOf := Function.update s.stakedIdOf t.id none }
              if U128 ≤ s1.totalUnstaked + 1 then
                (.error "Total unstaked overflow", s1)
              else
                (.ok [⟨stakedAlkaneId, 1⟩],
                  { s1 with totalUnstaked := s1.totalUnstaked + 1 })

/-! ## Basic stake contract (src/src/lib.rs) -/

/-- Persistent storage of the basic stake ledger: `/stake-blocks`,
`/unstake-heights`, `/total-staked-blocks`, and
`/address-staked-pointer` keyed by the first-output script bytes. -/
structure BasicState where
  stakeBlock : AlkaneId → Nat
  unstakeHeight : AlkaneId → Nat
  totalStakedBlocks : AlkaneId → Nat
  addressStaked : List Nat → List AlkaneId

/-- Environment of one basic-ledger call: height, the allow-list
predicate (Modelled from the spec, as for `LPEnv`), and the
first-output script bytes decoded from the transaction (the decode
itself is host-supplied; a decode failure would reject the call before
any state access). -/
structure BasicEnv where
  height : Nat
  isBeepBoop : Nat → Bool
  claimAddr : List Nat

/-- `verify_id_collection` of the basic ledger. -/
def verifyIdCollectionBasic (env : BasicEnv) (orbitalId : AlkaneId) : Bool :=
  orbitalId.block == BEEP_BOOP_BLOCK && env.isBeepBoop orbitalId.tx

/-- Basic-ledger `unstake` (opcode 501 of src/src/lib.rs).  Note the
period is the source's unchecked `u128` subtraction
`u128::from(now) - staked_at_block`, modelled with `wrapSub128`; the
accumulation into the total is checked. -/
def unstakeBasic (env : BasicEnv) (alkaneId : AlkaneId) (s : BasicState) :
    Except String (List AlkaneTransfer) × BasicState :=
  if !verifyIdCollectionBasic env alkaneId then
    (.error "Orbital ID not from Stake Beep Boop", s)
  else
    let stakedAlkaneIds := s.addressStaked env.claimAddr
    if !stakedAlkaneIds.any (fun i =>
        i.block == alkaneId.block && i.tx == alkaneId.tx) then
      (.error "Orbital is not staked", s)
    else
      let stakedAtBlock := s.stakeBlock alkaneId
      if stakedAtBlock = 0 then
        (.error "Orbital stake record not found", s)
      else
        let filtered := stakedAlkaneIds.filter (fun i =>
          !(i.block == alkaneId.block && i.tx == alkaneId.tx))
        let s1 := { s with
          addressStaked := Function.update s.addressStaked env.claimAddr filtered
          unstakeHeight := Function.update s.unstakeHeight alkaneId env.height
          stakeBlock := Function.update s.stakeBlock alkaneId 0 }
        let periodBlocks := wrapSub128 env.height stakedAtBlock
        let previousTotal := s1.totalStakedBlocks alkaneId
        if U128 ≤ previousTotal + periodBlocks then
          (.error "Total staked blocks overflow", s1)
        else
          (.ok [⟨alkaneId, 1⟩],
            { s1 with totalStakedBlocks :=
                (Function.update s1.totalStakedBlocks alkaneId
                  (previousTotal + periodBlocks)) })

/-! ## Helper lemmas -/

theorem claimLoop_bbSupply (env : StakeEnv) (l : List AlkaneTransfer)
    (s : ClaimState) (acc : Nat) :
    ((claimLoop env l s acc).2).bbSupply = s.bbSupply := by
  induction l generalizing s acc with
  | nil => rfl
  | cons t rest ih =>
    unfold claimLoop
    cases hres : resolveAlkaneId env t.id with
    | error e => rfl
    | ok o =>
      dsimp only
      split
      · rfl
      · split
        · exact ih _ _
        · exact ih _ _

theorem commitRun_of_err (s : ClaimState)
    (r : Except String (List AlkaneTransfer) × ClaimState)
    (h : isErrRes r) : commitRun s r = s := by
  obtain ⟨e, he⟩ := h
  unfold commitRun
  rw [he]

theorem claimRewards_ok_supply (env : StakeEnv) (inc : List AlkaneTransfer)
    (s : ClaimState) (ts : List AlkaneTransfer) (s' : ClaimState)
    (h : claimRewards env inc s = (.ok ts, s')) :
    s'.bbSupply ≤ MAX_SUPPLY ∨ s'.bbSupply = s.bbSupply := by
  unfold claimRewards at h
  split at h
  · exact absurd (congrArg Prod.fst h) (by simp)
  · split at h
    next e s1 heq => exact absurd (congrArg Prod.fst h) (by simp)
    next tot s1 heq =>
      dsimp only at h
      split at h
      · split at h
        · exact absurd (congrArg Prod.fst h) (by simp)
        · left
          have hs' : s' = { s1 with
              totalClaimed := s1.totalClaimed + tot,
              bbSupply := s1.bbSupply + tot } := (congrArg Prod.snd h).symm
          subst hs'
          simp only [not_lt] at *
          omega
      · right
        have hs' : s' = { s1 with totalClaimed := s1.totalClaimed + tot } :=
          (congrArg Prod.snd h).symm
        subst hs'
        have := claimLoop_bbSupply env inc s 0
        rw [heq] at this
        exact this

theorem swapBeepBoopToBB_ok_supply (env : StakeEnv)
    (inc : List AlkaneTransfer) (s : ClaimState) (ts : List AlkaneTransfer)
    (s' : ClaimState) (h : swapBeepBoopToBB env inc s = (.ok ts, s')) :
    s'.bbSupply ≤ MAX_SUPPLY := by
  unfold swapBeepBoopToBB at h
  split at h
  · exact absurd (congrArg Prod.fst h) (by simp)
  · split at h
    · exact absurd (congrArg Prod.fst h) (by simp)
    · dsimp only at h
      split at h
      · exact absurd (congrArg Prod.fst h) (by simp)
      next hcap =>
        have hs' := (congrArg Prod.snd h).symm
        subst hs'
        simp only [not_lt] at hcap
        exact hcap

/-! ## Claim C1 -/

/-- C1: the issued fungible supply never exceeds `MAX_SUPPLY` through
`ClaimRewards` or `SwapBeepBoopToBB`: a call whose mint would overrun
the cap errors, and an erroring call, once the host's commit discipline
is applied, leaves the persistent state unchanged. -/
theorem C1_supply_cap_atomic (env : StakeEnv) (inc : List AlkaneTransfer)
    (s : ClaimState) (h : s.bbSupply ≤ MAX_SUPPLY) :
    (commitRun s (claimRewards env inc s)).bbSupply ≤ MAX_SUPPLY ∧
    (commitRun s (swapBeepBoopToBB env inc s)).bbSupply ≤ MAX_SUPPLY ∧
    (isErrRes (claimRewards env inc s) →
      commitRun s (claimRewards env inc s) = s) ∧
    (isErrRes (swapBeepBoopToBB env inc s) →
      commitRun s (swapBeepBoopToBB env inc s) = s) := by
  refine ⟨?_, ?_, commitRun_of_err s _, commitRun_of_err s _⟩
  · rcases hr : claimRewards env inc s with ⟨res, st⟩
    cases res with
    | error e => simpa [commitRun, hr] using h
    | ok ts =>
      have := claimRewards_ok_supply env inc s ts st hr
      rcases this with h1 | h1 <;> simp only [commitRun, hr] <;> omega
  · rcases hr : swapBeepBoopToBB env inc s with ⟨res, st⟩
    cases res with
    | error e => simpa [commitRun, hr] using h
    | ok ts =>
      have := swapBeepBoopToBB_ok_supply env inc s ts st hr
      simpa [commitRun, hr] using this

/-- A trivial environment for witnesses: every static call fails. -/
def envTriv : StakeEnv :=
  ⟨0, ⟨9, 9⟩, fun _ => .error (), fun _ => .error (), fun _ => .error (),
    fun _ => .error ()⟩

/-- The all-zero claim-contract state. -/
def sZero : ClaimState := ⟨fun _ => 0, 0, 0, 0, fun _ => none, 0, 0⟩

theorem C1_witness :
    (commitRun sZero (claimRewards envTriv [] sZero)).bbSupply ≤ MAX_SUPPLY ∧
    (commitRun sZero (swapBeepBoopToBB envTriv [] sZero)).bbSupply ≤
      MAX_SUPPLY ∧
    (isErrRes (claimRewards envTriv [] sZero) →
      commitRun sZero (claimRewards envTriv [] sZero) = sZero) ∧
    (isErrRes (swapBeepBoopToBB envTriv [] sZero) →
      commitRun sZero (swapBeepBoopToBB envTriv [] sZero) = sZero) :=
  C1_supply_cap_atomic envTriv [] sZero (by decide)

/-! ## Claim C2 -/

/-- A directly eligible test asset. -/
def idA : AlkaneId := ⟨2, 7⟩

/-- Environment for the C2 counterexample: `idA` is directly eligible and
has 25001 lifetime staked blocks; every other query fails. -/
def envC2 : StakeEnv :=
  { height := 0
    myself := ⟨9, 9⟩
    eligData := fun i => if i = idA then .ok [1] else .error ()
    lpData := fun _ => .error ()
    totalStakedBlocksData := fun i =>
      if i = idA then
        .ok [169, 97, 0, 0, 0, 0, 0, 0, 0, 0, 0, 0, 0, 0, 0, 0]
      else .error ()
    stakedHeightData := fun _ => .error () }

/-- State for the C2 counterexample: `idA` has already claimed the full
lifetime cap of 25000. -/
def sC2 : ClaimState :=
  { sZero with claimed := fun i => if i = idA then 25000 else 0 }

/-- C2 counterexample: an asset whose `availableToClaim` is zero (its
lifetime cap is exhausted while its total rewards, 25001, still exceed
the claimed 25000) does NOT make `claim_rewards` fail — the call
succeeds with an empty response, contradicting the claim that any
zero-available asset fails the whole batch. -/
theorem C2_counterexample :
    getTotalAvailableToClaimOp envC2 sC2 idA = .ok 0 ∧
    (claimRewards envC2 [⟨idA, 1⟩] sC2).1 = .ok [] := by
  constructor <;> rfl

theorem claimLoop_singleton (env : StakeEnv) (s : ClaimState) (A : AlkaneId)
    (v : Nat) (hres : resolveAlkaneId env A = .ok A) :
    claimLoop env [⟨A, v⟩] s 0 =
      if calculateTotalRewards env A ≤ s.claimed A then
        (.error "No rewards available", s)
      else
        if 0 < min (calculateTotalRewards env A - s.claimed A)
            (SWAP_RATE - s.claimed A) then
          (.ok (0 + min (calculateTotalRewards env A - s.claimed A)
              (SWAP_RATE - s.claimed A)),
            { s with claimed :=
                (Function.update s.claimed A
                  (s.claimed A +
                    min (calculateTotalRewards env A - s.claimed A)
                      (SWAP_RATE - s.claimed A))) })
        else (.ok 0, s) := by
  simp only [claimLoop, hres]

/-- C2 (amended): `ClaimRewards` rejects an empty id list; any erroring
call commits nothing (host atomicity); and, for a single directly
eligible asset with supply headroom, the call fails exactly when the
asset's total rewards do not exceed its already-claimed amount — a
zero `availableToClaim` due solely to the exhausted lifetime cap does
not fail the call. -/
theorem C2_batch_error_semantics (env : StakeEnv) (s : ClaimState)
    (A : AlkaneId) (v : Nat) (hres : resolveAlkaneId env A = .ok A)
    (hsup : s.bbSupply + SWAP_RATE ≤ MAX_SUPPLY) :
    isErrRes (claimRewards env [] s) ∧
    (∀ inc, isErrRes (claimRewards env inc s) →
      commitRun s (claimRewards env inc s) = s) ∧
    (isErrRes (claimRewards env [⟨A, v⟩] s) ↔
      calculateTotalRewards env A ≤ s.claimed A) := by
  refine ⟨⟨_, rfl⟩, fun inc => commitRun_of_err s _, ?_⟩
  have hmin : min (calculateTotalRewards env A - s.claimed A)
      (SWAP_RATE - s.claimed A) ≤ SWAP_RATE :=
    le_trans (min_le_right _ _) (Nat.sub_le _ _)
  unfold claimRewards
  rw [if_neg (by simp), claimLoop_singleton env s A v hres]
  by_cases hC : calculateTotalRewards env A ≤ s.claimed A
  · rw [if_pos hC]
    simp [isErrRes, hC]
  · rw [if_neg hC]
    by_cases hP : 0 < min (calculateTotalRewards env A - s.claimed A)
        (SWAP_RATE - s.claimed A)
    · rw [if_pos hP]
      dsimp only
      rw [if_pos (by omega)]
      rw [if_neg (by omega)]
      simp [isErrRes, hC]
    · rw [if_neg hP]
      dsimp only
      rw [if_neg (by omega)]
      simp [isErrRes, hC]

/-- Environment for the C2 and C3 witnesses: `idA` directly eligible
with 100 lifetime staked blocks. -/
def envC3 : StakeEnv :=
  { height := 0
    myself := ⟨9, 9⟩
    eligData := fun i => if i = idA then .ok [1] else .error ()
    lpData := fun _ => .error ()
    totalStakedBlocksData := fun i =>
      if i = idA then
        .ok [100, 0, 0, 0, 0, 0, 0, 0, 0, 0, 0, 0, 0, 0, 0, 0]
      else .error ()
    stakedHeightData := fun _ => .error () }

theorem C2_witness :
    isErrRes (claimRewards envC3 [] sZero) ∧
    (∀ inc, isErrRes (claimRewards envC3 inc sZero) →
      commitRun sZero (claimRewards envC3 inc sZero) = sZero) ∧
    (isErrRes (claimRewards envC3 [⟨idA, 1⟩] sZero) ↔
      calculateTotalRewards envC3 idA ≤ sZero.claimed idA) :=
  C2_batch_error_semantics envC3 sZero idA 1 rfl (by decide)

/-! ## Claim C3 -/

theorem claimLoop_claimed_mono (env : StakeEnv) (a : AlkaneId) :
    ∀ (l : List AlkaneTransfer) (s : ClaimState) (acc : Nat),
      s.claimed a ≤ ((claimLoop env l s acc).2).claimed a := by
  intro l
  induction l with
  | nil => intro s acc; exact le_refl _
  | cons t rest ih =>
    intro s acc
    unfold claimLoop
    cases hres : resolveAlkaneId env t.id with
    | error e => exact le_refl _
    | ok o =>
      dsimp only
      split
      · exact le_refl _
      · split
        · refine le_trans ?_ (ih _ _)
          by_cases h : a = o
          · subst h
            dsimp only
            rw [Function.update_same]
            omega
          · dsimp only
            rw [Function.update_noteq h]
        · exact ih _ _

theorem claimLoop_claimed_cap (env : StakeEnv) (a : AlkaneId) :
    ∀ (l : List AlkaneTransfer) (s : ClaimState) (acc : Nat),
      s.claimed a ≤ SWAP_RATE →
      ((claimLoop env l s acc).2).claimed a ≤ SWAP_RATE := by
  intro l
  induction l with
  | nil => intro s acc h; exact h
  | cons t rest ih =>
    intro s acc h
    unfold claimLoop
    cases hres : resolveAlkaneId env t.id with
    | error e => exact h
    | ok o =>
      dsimp only
      split
      · exact h
      · split
        · refine ih _ _ ?_
          by_cases hao : a = o
          · subst hao
            dsimp only
            rw [Function.update_same]
            have := Nat.sub_le SWAP_RATE (s.claimed a)
            have := min_le_right (calculateTotalRewards env a - s.claimed a)
              (SWAP_RATE - s.claimed a)
            omega
          · dsimp only
            rw [Function.update_noteq hao]
            exact h
        · exact ih _ _ h

theorem claimLoop_claimed_rewards_bound (env : StakeEnv) (a : AlkaneId) :
    ∀ (l : List AlkaneTransfer) (s : ClaimState) (acc : Nat),
      ((claimLoop env l s acc).2).claimed a ≤
        max (s.claimed a) (calculateTotalRewards env a) := by
  intro l
  induction l with
  | nil => intro s acc; exact le_max_left _ _
  | cons t rest ih =>
    intro s acc
    unfold claimLoop
    cases hres : resolveAlkaneId env t.id with
    | error e => exact le_max_left _ _
    | ok o =>
      dsimp only
      split
      · exact le_max_left _ _
      next hgt =>
        split
        · refine le_trans (ih _ _) ?_
          by_cases hao : a = o
          · subst hao
            dsimp only
            rw [Function.update_same]
            have h1 := min_le_left (calculateTotalRewards env a - s.claimed a)
              (SWAP_RATE - s.claimed a)
            omega
          · dsimp only
            rw [Function.update_noteq hao]
        · exact ih _ _

/-- After `claim_rewards`, the per-asset claimed map is exactly the one
produced by the per-id loop (the tail of the call only touches global
counters). -/
theorem claimRewards_claimed (env : StakeEnv) (inc : List AlkaneTransfer)
    (s : ClaimState) (a : AlkaneId) :
    ((claimRewards env inc s).2).claimed a =
      ((claimLoop env inc s 0).2).claimed a := by
  unfold claimRewards
  split
  next hemp =>
    have : inc = [] := by
      cases inc with
      | nil => rfl
      | cons t r => simp [List.isEmpty] at hemp
    subst this
    rfl
  · split
    next e s1 heq => rw [heq]
    next tot s1 heq =>
      rw [heq]
      dsimp only
      split
      · split <;> rfl
      · rfl

/-- C3: across any `ClaimRewards` call the recorded claimed amount of
every asset is monotone, stays within the lifetime cap `SWAP_RATE`,
never exceeds the asset's total rewards at call time (beyond where it
already was), and a single-asset claim with rewards available adds
exactly `min(totalRewards - claimed, SWAP_RATE - claimed)` computed
with saturating subtraction. -/
theorem C3_claimed_monotone_capped (env : StakeEnv)
    (inc : List AlkaneTransfer) (s : ClaimState) (a : AlkaneId)
    (hcap : s.claimed a ≤ SWAP_RATE) :
    s.claimed a ≤ ((claimRewards env inc s).2).claimed a ∧
    ((claimRewards env inc s).2).claimed a ≤ SWAP_RATE ∧
    ((claimRewards env inc s).2).claimed a ≤
      max (s.claimed a) (calculateTotalRewards env a) ∧
    (∀ v : Nat, resolveAlkaneId env a = .ok a →
      s.claimed a < calculateTotalRewards env a →
      ((claimRewards env [⟨a, v⟩] s).2).claimed a =
        s.claimed a + min (calculateTotalRewards env a - s.claimed a)
          (SWAP_RATE - s.claimed a)) := by
  refine ⟨?_, ?_, ?_, ?_⟩
  · rw [claimRewards_claimed]
    exact claimLoop_claimed_mono env a inc s 0
  · rw [claimRewards_claimed]
    exact claimLoop_claimed_cap env a inc s 0 hcap
  · rw [claimRewards_claimed]
    exact claimLoop_claimed_rewards_bound env a inc s 0
  · intro v hres hlt
    rw [claimRewards_claimed, claimLoop_singleton env s a v hres,
      if_neg (not_le.mpr hlt)]
    by_cases hP : 0 < min (calculateTotalRewards env a - s.claimed a)
        (SWAP_RATE - s.claimed a)
    · rw [if_pos hP]
      dsimp only
      rw [Function.update_same]
    · rw [if_neg hP]
      dsimp only
      omega

theorem C3_witness :
    sZero.claimed idA ≤ ((claimRewards envC3 [⟨idA, 1⟩] sZero).2).claimed idA ∧
    ((claimRewards envC3 [⟨idA, 1⟩] sZero).2).claimed idA ≤ SWAP_RATE ∧
    ((claimRewards envC3 [⟨idA, 1⟩] sZero).2).claimed idA =
      sZero.claimed idA +
        min (calculateTotalRewards envC3 idA - sZero.claimed idA)
          (SWAP_RATE - sZero.claimed idA) :=
  ⟨(C3_claimed_monotone_capped envC3 [⟨idA, 1⟩] sZero idA (by decide)).1,
   (C3_claimed_monotone_capped envC3 [⟨idA, 1⟩] sZero idA (by decide)).2.1,
   (C3_claimed_monotone_capped envC3 [⟨idA, 1⟩] sZero idA
     (by decide)).2.2.2 1 rfl (by decide)⟩

/-! ## Claim C4 -/

/-- Basic-ledger environment for C4: current height 5, sequence 7 in the
allow-list, staker script bytes `[0]`. -/
def envC4B : BasicEnv := ⟨5, fun t => t == 7, [0]⟩

/-- Basic-ledger state for C4: `idA` staked at height 10 — a stake
height in the future of the current height 5, the spec's "clock
inconsistency" case. -/
def sC4B : BasicState :=
  { stakeBlock := fun i => if i = idA then 10 else 0
    unstakeHeight := fun _ => 0
    totalStakedBlocks := fun _ => 0
    addressStaked := fun l => if l = [0] then [idA] else [] }

/-- LP environment for C4: same height and allow-list. -/
def envC4L : LPEnv :=
  ⟨5, fun t => t == 7, fun _ => .error (), fun _ _ => .error (), fun _ => 0⟩

/-- An LP receipt id for C4. -/
def lpIdC4 : AlkaneId := ⟨2, 999⟩

/-- LP-variant state for C4: the receipt is bound to `idA`, staked at
height 10. -/
def sC4L : LPStakeState :=
  { stakeHeight := fun i => if i = idA then 10 else 0
    stakedIdOf := fun i => if i = lpIdC4 then some idA else none
    totalStakedBlocks := fun _ => 0
    totalStaked := 1
    totalUnstaked := 0
    instancesCount := 0
    instances := fun _ => none }

/-- C4: at current height 5 with `stakedAtHeight = 10`, the basic
ledger's unstake succeeds and adds the wrapped difference
`2 ^ 128 - 5` to `totalStakedBlocks` (the unchecked `u128` subtraction
of src/src/lib.rs), while the LP-binding variant's unstake saturates the
period at 0 as the claim demands — the claimed saturation does not hold
in the basic ledger. -/
theorem C4_unstake_wrap_vs_saturate :
    (unstakeBasic envC4B idA sC4B).1 = .ok [⟨idA, 1⟩] ∧
    ((unstakeBasic envC4B idA sC4B).2).totalStakedBlocks idA = 2 ^ 128 - 5 ∧
    (unstakeLP envC4L [⟨lpIdC4, 1⟩] sC4L).1 = .ok [⟨idA, 1⟩] ∧
    ((unstakeLP envC4L [⟨lpIdC4, 1⟩] sC4L).2).totalStakedBlocks idA = 0 := by
  refine ⟨rfl, by decide, rfl, by decide⟩

/-! ## Claim C6 -/

/-- A custodied pool asset. -/
def idX : AlkaneId := ⟨2, 5⟩

/-- Pool state for C6: recorded issued supply 0, one custodied asset in
slot 0. -/
def sC6 : ClaimState :=
  { claimed := fun _ => 0
    totalClaimed := 0
    bbSupply := 0
    poolBalance := 1
    slots := fun i => if i = 0 then some idX else none
    depositIndex := 1
    swapIndex := 0 }

/-- C6: swapping 25000 fungible units back while the recorded issued
supply is 0 does not raise a hard error: the unchecked `u128`
subtraction wraps and the recorded supply becomes `2 ^ 128 - 25000`,
contradicting the claimed checked subtraction. -/
theorem C6_burn_wraps :
    (swapBBToBeepBoop envTriv [⟨⟨9, 9⟩, 25000⟩] sC6).1 = .ok [⟨idX, 1⟩] ∧
    ((swapBBToBeepBoop envTriv [⟨⟨9, 9⟩, 25000⟩] sC6).2).bbSupply =
      2 ^ 128 - 25000 := by
  refine ⟨rfl, by decide⟩

/-! ## Claim C7 -/

/-- The asset deposited in the C7 counterexample. -/
def idY : AlkaneId := ⟨2, 8⟩

/-- Environment for the C7 counterexample: `idY` is eligible. -/
def envC7 : StakeEnv :=
  { envTriv with eligData := fun i => if i = idY then .ok [1] else .error () }

/-- C7 counterexample: with one older asset `idX` already pending in the
pool, depositing `idY` and immediately swapping `1 * SWAP_RATE`
fungible units returns the OLDER pool asset `idX`, not the just
deposited `idY` — the round trip as claimed fails for a non-empty
pool. -/
theorem C7_counterexample :
    (depositBeepBoop envC7 [⟨idY, 1⟩] sC6).1 = .ok [] ∧
    (swapBBToBeepBoop envC7 [⟨⟨9, 9⟩, 25000⟩]
        ((depositBeepBoop envC7 [⟨idY, 1⟩] sC6).2)).1 = .ok [⟨idX, 1⟩] ∧
    idX ≠ idY := by
  refine ⟨rfl, rfl, by decide⟩

/-- `slots` holds exactly the ids `ds` in consecutive positions starting
at `i`. -/
def holdsFrom (slots : Nat → Option AlkaneId) : Nat → List AlkaneId → Prop
  | _, [] => True
  | i, d :: rest => slots i = some d ∧ holdsFrom slots (i + 1) rest

theorem holdsFrom_update_lt (slots : Nat → Option AlkaneId) (j : Nat)
    (v : Option AlkaneId) :
    ∀ (ds : List AlkaneId) (i : Nat), j < i → holdsFrom slots i ds →
      holdsFrom (Function.update slots j v) i ds := by
  intro ds
  induction ds with
  | nil => intro i hj h; trivial
  | cons d rest ih =>
    intro i hj h
    refine ⟨?_, ih (i + 1) (by omega) h.2⟩
    rw [Function.update_noteq (by omega)]
    exact h.1

theorem retrieveLoop_succ_none (fuel : Nat) (slots : Nat → Option AlkaneId)
    (cur rem : Nat) (hrem : rem ≠ 0) (h0 : slots cur = none) :
    retrieveLoop (fuel + 1) slots cur rem = retrieveLoop fuel slots (cur + 1) rem := by
  simp only [retrieveLoop]
  rw [if_neg hrem, h0]

theorem retrieveLoop_skip (k : Nat) :
    ∀ (m : Nat) (slots : Nat → Option AlkaneId) (cur rem : Nat), 0 < rem →
      (∀ j, j < k → slots (cur + j) = none) →
      retrieveLoop (k + m) slots cur rem = retrieveLoop m slots (cur + k) rem := by
  induction k with
  | zero => intro m slots cur rem hrem hemp; simp
  | succ k ih =>
    intro m slots cur rem hrem hemp
    have h0 : slots cur = none := by simpa using hemp 0 (by omega)
    have hfuel : k + 1 + m = (k + m) + 1 := by omega
    rw [hfuel, retrieveLoop_succ_none (k + m) slots cur rem (by omega) h0]
    have hstep := ih m slots (cur + 1) rem hrem (fun j hj => by
      have := hemp (j + 1) (by omega)
      rw [show cur + 1 + j = cur + (j + 1) by omega]
      exact this)
    rw [hstep, show cur + 1 + k = cur + (k + 1) by omega]

theorem retrieveLoop_dispense :
    ∀ (ds : List AlkaneId) (slots : Nat → Option AlkaneId) (cur : Nat),
      holdsFrom slots cur ds →
      (retrieveLoop ds.length slots cur ds.length).1 =
        ds.map (fun d => ⟨d, 1⟩) ∧
      (retrieveLoop ds.length slots cur ds.length).2.2.2 = 0 := by
  intro ds
  induction ds with
  | nil => intro slots cur h; exact ⟨rfl, rfl⟩
  | cons d rest ih =>
    intro slots cur h
    have hrec := ih (Function.update slots cur none) (cur + 1)
      (holdsFrom_update_lt slots cur none rest (cur + 1) (by omega) h.2)
    simp only [List.length_cons]
    unfold retrieveLoop
    rw [if_neg (by omega), h.1]
    dsimp only
    rw [show rest.length + 1 - 1 = rest.length by omega]
    exact ⟨by rw [hrec.1, List.map_cons], hrec.2⟩

theorem storeLoop_fields :
    ∀ (l : List AlkaneTransfer) (s : ClaimState) (tot : Nat),
      (storeLoop l s tot).1.depositIndex = s.depositIndex + l.length ∧
      (storeLoop l s tot).1.swapIndex = s.swapIndex ∧
      (storeLoop l s tot).1.bbSupply = s.bbSupply ∧
      (storeLoop l s tot).1.poolBalance = s.poolBalance := by
  intro l
  induction l with
  | nil => intro s tot; exact ⟨by simp [storeLoop], rfl, rfl, rfl⟩
  | cons t rest ih =>
    intro s tot
    unfold storeLoop
    obtain ⟨h1, h2, h3, h4⟩ := ih
      { s with
        slots := Function.update s.slots s.depositIndex (some t.id)
        depositIndex := s.depositIndex + 1 } (tot + t.value)
    exact ⟨by rw [h1]; dsimp only; simp only [List.length_cons]; omega,
      h2, h3, h4⟩

theorem storeLoop_slots_lt :
    ∀ (l : List AlkaneTransfer) (s : ClaimState) (tot : Nat) (i : Nat),
      i < s.depositIndex → (storeLoop l s tot).1.slots i = s.slots i := by
  intro l
  induction l with
  | nil => intro s tot i hi; rfl
  | cons t rest ih =>
    intro s tot i hi
    unfold storeLoop
    rw [ih _ _ i (by dsimp only; omega)]
    dsimp only
    rw [Function.update_noteq (by omega)]

theorem storeLoop_holds :
    ∀ (l : List AlkaneTransfer) (s : ClaimState) (tot : Nat),
      holdsFrom (storeLoop l s tot).1.slots s.depositIndex
        (l.map (fun t => t.id)) := by
  intro l
  induction l with
  | nil => intro s tot; trivial
  | cons t rest ih =>
    intro s tot
    unfold storeLoop
    refine ⟨?_, ?_⟩
    · rw [storeLoop_slots_lt rest _ _ s.depositIndex (by dsimp only; omega)]
      dsimp only
      rw [Function.update_same]
    · exact ih
        { s with
          slots := Function.update s.slots s.depositIndex (some t.id)
          depositIndex := s.depositIndex + 1 } (tot + t.value)

theorem sumValues_foldl_init (l : List AlkaneTransfer) :
    ∀ i : Nat, l.foldl (fun a t => a + t.value) i =
      i + l.foldl (fun a t => a + t.value) 0 := by
  induction l with
  | nil => intro i; simp
  | cons t rest ih =>
    intro i
    simp only [List.foldl_cons]
    rw [ih (i + t.value), ih (0 + t.value)]
    omega

theorem sumValues_cons (t : AlkaneTransfer) (l : List AlkaneTransfer) :
    sumValues (t :: l) = t.value + sumValues l := by
  unfold sumValues
  simp only [List.foldl_cons]
  rw [sumValues_foldl_init l (0 + t.value)]
  omega

theorem storeLoop_total :
    ∀ (l : List AlkaneTransfer) (s : ClaimState) (tot : Nat),
      (storeLoop l s tot).2 = tot + sumValues l := by
  intro l
  induction l with
  | nil => intro s tot; simp [storeLoop, sumValues]
  | cons t rest ih =>
    intro s tot
    unfold storeLoop
    rw [ih, sumValues_cons]
    omega

theorem sumValues_map_one (ds : List AlkaneId) :
    sumValues (ds.map fun d => (⟨d, 1⟩ : AlkaneTransfer)) = ds.length := by
  induction ds with
  | nil => rfl
  | cons d rest ih =>
    rw [List.map_cons, sumValues_cons, ih, List.length_cons]
    dsimp only
    omega

theorem validateDeposit_ok (env : StakeEnv) :
    ∀ l : List AlkaneTransfer,
      (∀ t ∈ l, verifyIdCollection env t.id = .ok true) →
      validateDeposit env l = .ok () := by
  intro l
  induction l with
  | nil => intro _; rfl
  | cons t rest ih =>
    intro h
    unfold validateDeposit
    rw [h t (by simp)]
    exact ih (fun u hu => h u (by simp [hu]))

theorem retrieveBeepBoopTokens_fst (s' : ClaimState) (ds : List AlkaneId)
    (base : Nat) (h1 : s'.swapIndex ≤ base)
    (h2 : s'.depositIndex = base + ds.length)
    (h3 : ∀ i, s'.swapIndex ≤ i → i < base → s'.slots i = none)
    (h4 : holdsFrom s'.slots base ds) (h5 : 0 < ds.length) :
    (retrieveBeepBoopTokens ds.length s').1 =
      .ok (ds.map fun d => ⟨d, 1⟩) := by
  unfold retrieveBeepBoopTokens
  have hfuel : s'.depositIndex - s'.swapIndex =
      (base - s'.swapIndex) + ds.length := by omega
  rw [hfuel, retrieveLoop_skip (base - s'.swapIndex) ds.length s'.slots
      s'.swapIndex ds.length h5
      (fun j hj => h3 (s'.swapIndex + j) (by omega) (by omega)),
    show s'.swapIndex + (base - s'.swapIndex) = base by omega]
  obtain ⟨ha, hb⟩ := retrieveLoop_dispense ds s'.slots base h4
  rcases hr : retrieveLoop ds.length s'.slots base ds.length with ⟨ts, sl, c, r⟩
  rw [hr] at ha hb
  simp only at ha hb
  subst ha
  subst hb
  dsimp only
  rw [if_neg (by omega)]

theorem swapBBToBeepBoop_fst (env : StakeEnv) (s' : ClaimState)
    (ds : List AlkaneId) (base : Nat) (hbal : ds.length ≤ s'.poolBalance)
    (h1 : s'.swapIndex ≤ base) (h2 : s'.depositIndex = base + ds.length)
    (h3 : ∀ i, s'.swapIndex ≤ i → i < base → s'.slots i = none)
    (h4 : holdsFrom s'.slots base ds) (h5 : 0 < ds.length) :
    (swapBBToBeepBoop env [⟨env.myself, ds.length * SWAP_RATE⟩] s').1 =
      .ok (ds.map fun d => ⟨d, 1⟩) := by
  unfold swapBBToBeepBoop
  rw [if_neg (by simp)]
  have hsum : sumValues [⟨env.myself, ds.length * SWAP_RATE⟩] =
      ds.length * SWAP_RATE := by
    simp [sumValues]
  rw [hsum]
  rw [if_neg (Nat.mul_ne_zero (by omega) (by decide))]
  dsimp only
  have hdiv : ds.length * SWAP_RATE / SWAP_RATE = ds.length :=
    Nat.mul_div_cancel ds.length (show 0 < SWAP_RATE by decide)
  have hmod : ds.length * SWAP_RATE % SWAP_RATE = 0 :=
    Nat.mul_mod_left ds.length SWAP_RATE
  rw [hdiv, hmod]
  rw [if_neg (by omega), if_neg (by omega)]
  have hret := retrieveBeepBoopTokens_fst
    { s' with bbSupply := wrapSub128 s'.bbSupply (ds.length * SWAP_RATE) }
    ds base h1 h2 h3 h4 h5
  rcases hr : retrieveBeepBoopTokens ds.length
      { s' with bbSupply := wrapSub128 s'.bbSupply (ds.length * SWAP_RATE) }
    with ⟨res, st⟩
  rw [hr] at hret
  simp only at hret
  subst hret
  simp

/-- C7 (amended): provided the pool holds no pending custodied asset
(every slot in `[RetrieveIndex, DepositIndex)` is empty), depositing N
eligible assets of value 1 each and immediately swapping exactly
`N * SWAP_RATE` self-issued fungible units succeeds and returns exactly
those N assets in deposit (FIFO) order with no fungible change
transfer.  With pending assets present, FIFO dispenses the older assets
first instead (see the counterexample). -/
theorem C7_roundtrip_clean_pool (env : StakeEnv) (s : ClaimState)
    (ds : List AlkaneId) (hne : ds ≠ [])
    (hver : ∀ d ∈ ds, verifyIdCollection env d = .ok true)
    (hidx : s.swapIndex ≤ s.depositIndex)
    (hempty : ∀ i, s.swapIndex ≤ i → i < s.depositIndex → s.slots i = none) :
    (depositBeepBoop env (ds.map fun d => ⟨d, 1⟩) s).1 = .ok [] ∧
    (swapBBToBeepBoop env [⟨env.myself, ds.length * SWAP_RATE⟩]
        ((depositBeepBoop env (ds.map fun d => ⟨d, 1⟩) s).2)).1 =
      .ok (ds.map fun d => ⟨d, 1⟩) := by
  have hN : 0 < ds.length := by
    cases ds with
    | nil => exact absurd rfl hne
    | cons a b => simp
  have hval : validateDeposit env (ds.map fun d => ⟨d, 1⟩) = .ok () := by
    refine validateDeposit_ok env _ ?_
    intro t ht
    obtain ⟨d, hd, rfl⟩ := List.mem_map.mp ht
    exact hver d hd
  have hmapne :
      ((ds.map fun d => (⟨d, 1⟩ : AlkaneTransfer))).isEmpty = false := by
    cases ds with
    | nil => exact absurd rfl hne
    | cons a b => rfl
  have hdep : depositBeepBoop env (ds.map fun d => ⟨d, 1⟩) s =
      (.ok [], { (storeLoop (ds.map fun d => ⟨d, 1⟩) s 0).1 with
        poolBalance :=
          (storeLoop (ds.map fun d => ⟨d, 1⟩) s 0).1.poolBalance +
            (storeLoop (ds.map fun d => ⟨d, 1⟩) s 0).2 }) := by
    unfold depositBeepBoop
    simp only [hmapne, Bool.false_eq_true, if_false, hval]
  obtain ⟨hFd, hFs, hFb, hFp⟩ := storeLoop_fields (ds.map fun d => ⟨d, 1⟩) s 0
  have hT : (storeLoop (ds.map fun d => ⟨d, 1⟩) s 0).2 = ds.length := by
    rw [storeLoop_total, sumValues_map_one]
    omega
  have hids : ((ds.map fun d => (⟨d, 1⟩ : AlkaneTransfer)).map
      (fun t => t.id)) = ds := by
    rw [List.map_map,
      show ((fun t : AlkaneTransfer => t.id) ∘ fun d => (⟨d, 1⟩ : AlkaneTransfer)) =
        id from rfl, List.map_id]
  have hholds : holdsFrom (storeLoop (ds.map fun d => ⟨d, 1⟩) s 0).1.slots
      s.depositIndex ds := by
    have := storeLoop_holds (ds.map fun d => ⟨d, 1⟩) s 0
    rwa [hids] at this
  refine ⟨by rw [hdep], ?_⟩
  rw [hdep]
  refine swapBBToBeepBoop_fst env _ ds s.depositIndex ?_ ?_ ?_ ?_ hholds hN
  · dsimp only
    rw [hT, hFp]
    omega
  · dsimp only
    rw [hFs]
    omega
  · dsimp only
    rw [hFd, List.length_map]
  · intro i hi1 hi2
    dsimp only at hi1 ⊢
    rw [hFs] at hi1
    rw [storeLoop_slots_lt _ _ _ i hi2]
    exact hempty i hi1 hi2

theorem C7_witness :
    (depositBeepBoop envC7 ([idY].map fun d => ⟨d, 1⟩) sZero).1 = .ok [] ∧
    (swapBBToBeepBoop envC7 [⟨envC7.myself, [idY].length * SWAP_RATE⟩]
        ((depositBeepBoop envC7 ([idY].map fun d => ⟨d, 1⟩) sZero).2)).1 =
      .ok ([idY].map fun d => ⟨d, 1⟩) :=
  C7_roundtrip_clean_pool envC7 sZero [idY] (by simp)
    (by
      intro d hd
      simp only [List.mem_singleton] at hd
      subst hd
      rfl)
    (by decide) (fun i h1 h2 => absurd h2 (Nat.not_lt_zero i))

/-! ## Claim C8 -/

/-- The number of non-empty slots among `len` consecutive positions
starting at `start`. -/
def countFilled (slots : Nat → Option AlkaneId) : Nat → Nat → Nat
  | _, 0 => 0
  | start, len + 1 =>
    (if (slots start).isSome then 1 else 0) + countFilled slots (start + 1) len

theorem countFilled_update_lt (slots : Nat → Option AlkaneId)
    (j : Nat) (v : Option AlkaneId) :
    ∀ (len start : Nat), j < start →
      countFilled (Function.update slots j v) start len =
        countFilled slots start len := by
  intro len
  induction len with
  | zero => intro start hj; rfl
  | succ len ih =>
    intro start hj
    unfold countFilled
    rw [Function.update_noteq (by omega), ih (start + 1) (by omega)]

theorem retrieveLoop_shortfall :
    ∀ (fuel : Nat) (slots : Nat → Option AlkaneId) (cur rem : Nat),
      countFilled slots cur fuel < rem →
      (retrieveLoop fuel slots cur rem).2.2.1 = cur + fuel ∧
      0 < (retrieveLoop fuel slots cur rem).2.2.2 := by
  intro fuel
  induction fuel with
  | zero =>
    intro slots cur rem h
    refine ⟨by simp [retrieveLoop], ?_⟩
    have h0 : countFilled slots cur 0 = 0 := rfl
    rw [h0] at h
    simpa [retrieveLoop] using h
  | succ fuel ih =>
    intro slots cur rem h
    have hrem : rem ≠ 0 := by
      have := Nat.zero_le (countFilled slots cur (fuel + 1))
      omega
    unfold retrieveLoop
    rw [if_neg hrem]
    cases hslot : slots cur with
    | some tid =>
      have hcount : countFilled slots cur (fuel + 1) =
          1 + countFilled slots (cur + 1) fuel := by
        simp [countFilled, hslot]
      have h' : countFilled (Function.update slots cur none) (cur + 1) fuel <
          rem - 1 := by
        rw [countFilled_update_lt slots cur none fuel (cur + 1) (by omega)]
        omega
      obtain ⟨hc, hr⟩ := ih (Function.update slots cur none) (cur + 1) (rem - 1) h'
      rcases hrec : retrieveLoop fuel (Function.update slots cur none) (cur + 1)
          (rem - 1) with ⟨ts, sl, c, r⟩
      rw [hrec] at hc hr
      simp only at hc hr
      dsimp only
      exact ⟨by omega, hr⟩
    | none =>
      have hcount : countFilled slots cur (fuel + 1) =
          countFilled slots (cur + 1) fuel := by
        simp [countFilled, hslot]
      obtain ⟨hc, hr⟩ := ih slots (cur + 1) rem (by omega)
      exact ⟨by rw [hc]; omega, hr⟩

theorem retrieveBeepBoopTokens_shortfall (s' : ClaimState) (amount : Nat)
    (h : countFilled s'.slots s'.swapIndex (s'.depositIndex - s'.swapIndex) <
      amount) :
    (retrieveBeepBoopTokens amount s').1 =
      .error "Insufficient stored BEEP BOOP NFTs" ∧
    (retrieveBeepBoopTokens amount s').2.swapIndex =
      s'.swapIndex + (s'.depositIndex - s'.swapIndex) := by
  unfold retrieveBeepBoopTokens
  obtain ⟨hc, hr⟩ := retrieveLoop_shortfall (s'.depositIndex - s'.swapIndex)
    s'.slots s'.swapIndex amount h
  rcases hrec : retrieveLoop (s'.depositIndex - s'.swapIndex) s'.slots
      s'.swapIndex amount with ⟨ts, sl, c, r⟩
  rw [hrec] at hc hr
  simp only at hc hr
  dsimp only
  rw [if_pos hr]
  exact ⟨rfl, hc⟩

/-- The full evaluation skeleton of `swap_b_b_to_beep_boop` on a single
self-issued transfer of `v` units. -/
theorem swapBBToBeepBoop_core (env : StakeEnv) (s : ClaimState) (v : Nat) :
    swapBBToBeepBoop env [⟨env.myself, v⟩] s =
      (if v = 0 then (.error "Must provide $BB tokens to swap", s)
       else if v / SWAP_RATE = 0 then
        (.error "Insufficient $BB tokens to swap for at least 1 BEEP BOOP", s)
       else if s.poolBalance < v / SWAP_RATE then
        (.error "Insufficient BEEP BOOP tokens in contract pool", s)
       else
        match retrieveBeepBoopTokens (v / SWAP_RATE)
            { s with bbSupply :=
              wrapSub128 s.bbSupply (v / SWAP_RATE * SWAP_RATE) } with
        | (.error e, s2) => (.error e, s2)
        | (.ok tokens, s2) =>
          (.ok (tokens ++
              (if 0 < v % SWAP_RATE then [⟨env.myself, v % SWAP_RATE⟩] else [])),
            { s2 with poolBalance := s2.poolBalance - v / SWAP_RATE })) := by
  unfold swapBBToBeepBoop
  rw [if_neg (by simp)]
  have hsum : sumValues [⟨env.myself, v⟩] = v := by simp [sumValues]
  rw [hsum]

/-- C8: the fungible-to-asset swap rejects a zero `wholeUnits` input and
an insufficient recorded pool balance; and when the forward scan finds
fewer filled slots than `wholeUnits`, the call is a hard error while the
retrieve index has nevertheless been written forward to the first
unscanned position (the end of the scanned range) in the raw state. -/
theorem C8_swap_out_rejection_index (env : StakeEnv) (s : ClaimState)
    (v : Nat) :
    (v / SWAP_RATE = 0 → isErrRes (swapBBToBeepBoop env [⟨env.myself, v⟩] s)) ∧
    (s.poolBalance < v / SWAP_RATE →
      isErrRes (swapBBToBeepBoop env [⟨env.myself, v⟩] s)) ∧
    (0 < v / SWAP_RATE → ¬ s.poolBalance < v / SWAP_RATE →
      s.swapIndex ≤ s.depositIndex →
      countFilled s.slots s.swapIndex (s.depositIndex - s.swapIndex) <
        v / SWAP_RATE →
      isErrRes (swapBBToBeepBoop env [⟨env.myself, v⟩] s) ∧
      ((swapBBToBeepBoop env [⟨env.myself, v⟩] s).2).swapIndex =
        s.depositIndex) := by
  refine ⟨?_, ?_, ?_⟩
  · intro h0
    rw [swapBBToBeepBoop_core]
    by_cases hv : v = 0
    · rw [if_pos hv]
      exact ⟨_, rfl⟩
    · rw [if_neg hv, if_pos h0]
      exact ⟨_, rfl⟩
  · intro hbal
    rw [swapBBToBeepBoop_core]
    by_cases hv : v = 0
    · rw [if_pos hv]
      exact ⟨_, rfl⟩
    · rw [if_neg hv]
      by_cases h0 : v / SWAP_RATE = 0
      · rw [if_pos h0]
        exact ⟨_, rfl⟩
      · rw [if_neg h0, if_pos hbal]
        exact ⟨_, rfl⟩
  · intro h0 hbal hidx hcount
    have hv : v ≠ 0 := by
      intro hv
      subst hv
      simp at h0
    rw [swapBBToBeepBoop_core, if_neg hv, if_neg (by omega), if_neg hbal]
    obtain ⟨he, hi⟩ := retrieveBeepBoopTokens_shortfall
      { s with bbSupply := wrapSub128 s.bbSupply (v / SWAP_RATE * SWAP_RATE) }
      (v / SWAP_RATE) hcount
    rcases hrec : retrieveBeepBoopTokens (v / SWAP_RATE)
        { s with bbSupply :=
          wrapSub128 s.bbSupply (v / SWAP_RATE * SWAP_RATE) }
      with ⟨res, st⟩
    rw [hrec] at he hi
    simp only at he hi
    subst he
    exact ⟨⟨_, rfl⟩, by dsimp only; omega⟩

/-- A pool state for the C8 witness: the recorded balance says one asset
is available but every slot is empty. -/
def sC8 : ClaimState :=
  { claimed := fun _ => 0
    totalClaimed := 0
    bbSupply := 0
    poolBalance := 1
    slots := fun _ => none
    depositIndex := 1
    swapIndex := 0 }

theorem C8_witness :
    isErrRes (swapBBToBeepBoop envTriv [⟨envTriv.myself, 25000⟩] sC8) ∧
    ((swapBBToBeepBoop envTriv [⟨envTriv.myself, 25000⟩] sC8).2).swapIndex =
      sC8.depositIndex :=
  (C8_swap_out_rejection_index envTriv sC8 25000).2.2 (by decide) (by decide)
    (by decide) (by decide)

/-! ## Claim C9 -/

/-- C9 counterexample: with the stake-ledger dependency unreachable
(every static call fails), the available-to-claim accessor does not
return a value — the `unwrap` on the eligibility query panics, modelled
as an error — contradicting the claim that every read accessor always
returns a value. -/
theorem C9_counterexample :
    getTotalAvailableToClaimOp envTriv sZero idA =
      .error "unwrap: eligibility staticcall failed" := rfl

/-- C9 (amended): inside reward computation, failures of the
staked-blocks and staked-height queries (including responses that are
not exactly 16 bytes) degrade to zero, so `calculate_total_rewards`
always yields a value; but the resolve step of the public read
accessors propagates an eligibility-query failure as a panic/error
instead of degrading, so those accessors do not always return a
value. -/
theorem C9_read_degradation (env : StakeEnv) (s : ClaimState) (a : AlkaneId) :
    (env.totalStakedBlocksData a = .error () →
      getTotalStakedBlocksFromContract env a = 0) ∧
    (∀ l, env.totalStakedBlocksData a = .ok l → l.length ≠ 16 →
      getTotalStakedBlocksFromContract env a = 0) ∧
    (env.stakedHeightData a = .error () →
      getCurrentStakingPeriod env a = 0) ∧
    (∀ l, env.stakedHeightData a = .ok l → l.length ≠ 16 →
      getCurrentStakingPeriod env a = 0) ∧
    (env.eligData a = .error () →
      (∃ e, getTotalStakedByIdOp env a = .error e) ∧
      (∃ e, getTotalClaimedByIdOp env s a = .error e) ∧
      (∃ e, getTotalAvailableToClaimOp env s a = .error e)) := by
  refine ⟨?_, ?_, ?_, ?_, ?_⟩
  · intro h
    unfold getTotalStakedBlocksFromContract
    rw [h]
  · intro l hl hlen
    unfold getTotalStakedBlocksFromContract
    rw [hl]
    dsimp only
    rw [if_pos hlen]
  · intro h
    have ht : tryGetStakedHeight env a = .error "Staticcall failed" := by
      unfold tryGetStakedHeight
      rw [h]
    unfold getCurrentStakingPeriod
    rw [ht]
    rfl
  · intro l hl hlen
    have ht : tryGetStakedHeight env a =
        .error "Invalid response size from GetStakedHeight" := by
      unfold tryGetStakedHeight
      rw [hl]
      dsimp only
      rw [if_pos hlen]
    unfold getCurrentStakingPeriod
    rw [ht]
    rfl
  · intro h
    have hres : resolveAlkaneId env a =
        .error "unwrap: eligibility staticcall failed" := by
      unfold resolveAlkaneId
      rw [h]
    refine ⟨⟨"unwrap: eligibility staticcall failed", ?_⟩,
      ⟨"unwrap: eligibility staticcall failed", ?_⟩,
      ⟨"unwrap: eligibility staticcall failed", ?_⟩⟩
    · unfold getTotalStakedByIdOp
      rw [hres]
    · unfold getTotalClaimedByIdOp
      rw [hres]
    · unfold getTotalAvailableToClaimOp
      rw [hres]

theorem C9_witness :
    getTotalStakedBlocksFromContract envTriv idA = 0 ∧
    getCurrentStakingPeriod envTriv idA = 0 ∧
    (∃ e, getTotalStakedByIdOp envTriv idA = .error e) :=
  ⟨(C9_read_degradation envTriv sZero idA).1 rfl,
   (C9_read_degradation envTriv sZero idA).2.2.1 rfl,
   ((C9_read_degradation envTriv sZero idA).2.2.2.2 rfl).1⟩

/-! ## Claim C5 -/

/-- A 16-byte little-endian encoding of the mint index 5. -/
def bytes5 : List Nat := [5, 0, 0, 0, 0, 0, 0, 0, 0, 0, 0, 0, 0, 0, 0, 0]

/-- LP environment for the C5 counterexample: `idA` is eligible with
queried mint index 5; the n-th factory invocation returns the transfer
`{2, 100 + n}` and the host sequence at that moment is `1000 + n`. -/
def envC5 : LPEnv :=
  { height := 42
    isBeepBoop := fun t => t == 7
    mintIndexData := fun i => if i = idA then .ok bytes5 else .error ()
    factoryCall := fun n _ => .ok [⟨⟨2, 100 + n⟩, 1⟩]
    seq := fun n => 1000 + n }

/-- The empty LP-stake state. -/
def sLP0 : LPStakeState :=
  { stakeHeight := fun _ => 0
    stakedIdOf := fun _ => none
    totalStakedBlocks := fun _ => 0
    totalStaked := 0
    totalUnstaked := 0
    instancesCount := 0
    instances := fun _ => none }

/-- C5 counterexample: the first stake of `idA`, whose queried mint
index is 5, mints a receipt, but the InstanceRegistry records the id
`{2, sequence}` at the sequential key `instancesCount + 1 = 1` — the
entry at the queried index 5 stays empty, contradicting the claim that
the receipt is recorded at that index. -/
theorem C5_counterexample :
    (stakeLP envC5 [⟨idA, 1⟩] sLP0).1 = .ok [⟨⟨2, 100⟩, 1⟩] ∧
    ((stakeLP envC5 [⟨idA, 1⟩] sLP0).2).instancesCount = 1 ∧
    ((stakeLP envC5 [⟨idA, 1⟩] sLP0).2).instances 5 = none ∧
    ((stakeLP envC5 [⟨idA, 1⟩] sLP0).2).instances 1 = some ⟨2, 1000⟩ :=
  ⟨rfl, rfl, rfl, rfl⟩

/-- C5 (amended): on a single stake whose queried mint index has no
receipt recorded at that key, a new receipt is minted via the factory,
the id `{2, sequence}` is recorded at the sequential key
`instancesCount + 1` (not at the queried index), and the factory's
returned transfer is bound to the original and returned; on a stake
whose queried index does hold a recorded receipt, that receipt is
reused — returned and re-bound — with no new mint. -/
theorem C5_receipt_mint_reuse (env : LPEnv) (s : LPStakeState)
    (A : AlkaneId) (d : List Nat) (hver : verifyIdCollectionLP env A = true)
    (hh : s.stakeHeight A = 0) (hmd : env.mintIndexData A = .ok d)
    (hlen : d.length = 16) :
    (fromLEBytes d < MAX_MINTS → s.instancesCount + 1 < U128 →
      s.instances (fromLEBytes d) = none →
      ∀ m ms, env.factoryCall 0 (fromLEBytes d) = .ok (m :: ms) →
      (stakeLP env [⟨A, 1⟩] s).1 = .ok [m] ∧
      ((stakeLP env [⟨A, 1⟩] s).2).instances (s.instancesCount + 1) =
        some ⟨2, env.seq 0⟩ ∧
      ((stakeLP env [⟨A, 1⟩] s).2).stakedIdOf m.id = some A ∧
      ((stakeLP env [⟨A, 1⟩] s).2).instancesCount = s.instancesCount + 1) ∧
    (∀ R, s.instances (fromLEBytes d) = some R →
      (stakeLP env [⟨A, 1⟩] s).1 = .ok [⟨R, 1⟩] ∧
      ((stakeLP env [⟨A, 1⟩] s).2).stakedIdOf R = some A ∧
      ((stakeLP env [⟨A, 1⟩] s).2).instancesCount = s.instancesCount) := by
  have hchecks : lpStakeChecks env [⟨A, 1⟩] s = .ok () := by
    simp [lpStakeChecks, hver, hh]
  constructor
  · intro hix hcnt hnone m ms hfac
    have heval : stakeLP env [⟨A, 1⟩] s =
        (.ok [m],
          { stakeHeight := Function.update s.stakeHeight A env.height
            stakedIdOf := Function.update s.stakedIdOf m.id (some A)
            totalStakedBlocks := s.totalStakedBlocks
            totalStaked := s.totalStaked + 1
            totalUnstaked := s.totalUnstaked
            instancesCount := s.instancesCount + 1
            instances := Function.update s.instances (s.instancesCount + 1)
              (some ⟨2, env.seq 0⟩) }) := by
      unfold stakeLP
      rw [if_neg (by simp), hchecks]
      unfold lpStakeLoop
      rw [if_neg (by simp), hmd]
      dsimp only
      rw [if_neg (by simp [hlen]), hnone]
      unfold createMintTransfer
      rw [if_neg (by omega), hfac]
      dsimp only
      rw [if_neg (by omega)]
      unfold lpStakeLoop
      rfl
    rw [heval]
    refine ⟨rfl, ?_, ?_, rfl⟩
    · dsimp only
      rw [Function.update_same]
    · dsimp only
      rw [Function.update_same]
  · intro R hsome
    have heval : stakeLP env [⟨A, 1⟩] s =
        (.ok [⟨R, 1⟩],
          { stakeHeight := Function.update s.stakeHeight A env.height
            stakedIdOf := Function.update s.stakedIdOf R (some A)
            totalStakedBlocks := s.totalStakedBlocks
            totalStaked := s.totalStaked + 1
            totalUnstaked := s.totalUnstaked
            instancesCount := s.instancesCount
            instances := s.instances }) := by
      unfold stakeLP
      rw [if_neg (by simp), hchecks]
      unfold lpStakeLoop
      rw [if_neg (by simp), hmd]
      dsimp only
      rw [if_neg (by simp [hlen]), hsome]
      unfold lpStakeLoop
      rfl
    rw [heval]
    refine ⟨rfl, ?_, rfl⟩
    dsimp only
    rw [Function.update_same]

theorem C5_witness :
    (stakeLP envC5 [⟨idA, 1⟩] sLP0).1 = .ok [⟨⟨2, 100⟩, 1⟩] ∧
    ((stakeLP envC5 [⟨idA, 1⟩] sLP0).2).instances
      (sLP0.instancesCount + 1) = some ⟨2, envC5.seq 0⟩ ∧
    ((stakeLP envC5 [⟨idA, 1⟩] sLP0).2).stakedIdOf
      (⟨⟨2, 100⟩, 1⟩ : AlkaneTransfer).id = some idA ∧
    ((stakeLP envC5 [⟨idA, 1⟩] sLP0).2).instancesCount =
      sLP0.instancesCount + 1 :=
  (C5_receipt_mint_reuse envC5 sLP0 idA bytes5 rfl rfl rfl rfl).1
    (by decide) (by decide) rfl ⟨⟨2, 100⟩, 1⟩ [] rfl

/-! ## Claim C10 -/

/-- LP environment for C10: height 5; otherwise as `envC5`. -/
def envC10 : LPEnv :=
  { height := 5
    isBeepBoop := fun t => t == 7
    mintIndexData := fun i => if i = idA then .ok bytes5 else .error ()
    factoryCall := fun n _ => .ok [⟨⟨2, 100 + n⟩, 1⟩]
    seq := fun n => 1000 + n }

/-- C10: a single LP-stake call whose incoming batch carries the same
eligible, unstaked asset `idA` twice (each of value 1) passes all the
up-front checks — they run before any write — succeeds, and bumps
`TotalStaked` by 2 even though `idA` is the only asset whose stake
height became non-zero. -/
theorem C10_duplicate_batch_double_count :
    (stakeLP envC10 [⟨idA, 1⟩, ⟨idA, 1⟩] sLP0).1 =
      .ok [⟨⟨2, 100⟩, 1⟩, ⟨⟨2, 101⟩, 1⟩] ∧
    ((stakeLP envC10 [⟨idA, 1⟩, ⟨idA, 1⟩] sLP0).2).totalStaked = 2 ∧
    ((stakeLP envC10 [⟨idA, 1⟩, ⟨idA, 1⟩] sLP0).2).stakeHeight =
      fun b => if b = idA then 5 else 0 := by
  refine ⟨rfl, rfl, ?_⟩
  have h : ((stakeLP envC10 [⟨idA, 1⟩, ⟨idA, 1⟩] sLP0).2).stakeHeight =
      Function.update (Function.update sLP0.stakeHeight idA envC10.height)
        idA envC10.height := rfl
  rw [h]
  funext b
  by_cases hb : b = idA
  · subst hb
    rw [Function.update_same, if_pos rfl]
    rfl
  · rw [Function.update_noteq hb, Function.update_noteq hb, if_neg hb]
    rfl

end StakeOrbitals
